import Mathlib

/-!
Shallow embedding of the self-update engine of `secret_manager`
(`src/update.go` of ohishi-yhonda-org/secret_manager).

Strings are modelled as Lean `String` (sequences of characters).
Fallible OS and network calls are modelled by boolean oracles packaged
in environment structures: a `true` flag means "this call, if reached,
succeeds", so theorems quantify over every pattern of failures the Go
code can observe through returned `error` values.
-/

/-! ## Go `strings` package primitives used by `update.go` -/

/-- Is the second list a prefix of the first?  Models the prefix test
underlying Go's `strings.HasPrefix`. -/
def startsWithL : List Char → List Char → Bool
  | _, [] => true
  | [], _ :: _ => false
  | a :: s, b :: p => a = b && startsWithL s p

/-- Does `sub` occur in `s` starting at some position?  Helper for
`goContains`. -/
def containsAt : List Char → List Char → Bool
  | [], sub => sub.isEmpty
  | a :: s, sub => startsWithL (a :: s) sub || containsAt s sub

/-- Models Go's `strings.Contains(s, sub)`: substring occurrence. -/
def goContains (s sub : String) : Bool :=
  containsAt s.toList sub.toList

/-- Models Go's `strings.TrimPrefix(s, p)`: drop a leading `p` when
present, otherwise return `s` unchanged. -/
def goTrimLeading (s p : String) : String :=
  if startsWithL s.toList p.toList then s.drop p.length else s

/-- Models Go's `strings.HasSuffix`-free tail of `filepath.Base`: the
characters of the last `/`-separated component. -/
def lastSeg : List Char → List Char → List Char
  | cur, [] => cur
  | cur, c :: rest => if c = '/' then lastSeg [] rest else lastSeg (cur ++ [c]) rest

/-- Models Go's `filepath.Base` for slash-separated names (tar and zip
entry names always use `/`). -/
def goBase (p : String) : String :=
  if p.isEmpty then "."
  else
    let l := (p.toList.reverse.dropWhile (fun c => c = '/')).reverse
    if l.isEmpty then "/" else ⟨lastSeg [] l⟩

/-- Models Go's `filepath.Join(a, b)` for already-clean relative
components (no `.`/`..` segments), with `/` as separator. -/
def goJoin (a b : String) : String :=
  if a.isEmpty then b else if b.isEmpty then a else a ++ "/" ++ b

/-! ## Release metadata (`GitHubRelease`) -/

/-- One downloadable file of a release (`update.go` asset struct). -/
structure Asset where
  name : String
  browserDownloadURL : String
deriving DecidableEq, Repr

/-- Decoded release metadata (`GitHubRelease` in `update.go`). -/
structure GitHubRelease where
  tagName : String
  name : String
  assets : List Asset
deriving DecidableEq, Repr

/-! ## `getLatestRelease` -/

/-- Failure kinds of `getLatestRelease`. -/
inductive FetchErr where
  | requestError
  | transportError
  | httpStatus (code : Nat)
  | decodeError
deriving DecidableEq, Repr

/-- Environment of one `getLatestRelease` call: outcomes of
`http.NewRequest`, `httpClient.Do`, the response status, and the decoded
body (`none` means the JSON decoder fails). -/
structure FetchEnv where
  newRequestOk : Bool
  doOk : Bool
  status : Nat
  body : Option GitHubRelease
deriving DecidableEq, Repr

/-- Models `getLatestRelease` (`update.go` lines 114-137): build the
request, perform it, reject any status other than 200 (`http.StatusOK`)
carrying the status code, then JSON-decode the body. -/
def getLatestRelease (env : FetchEnv) : Except FetchErr GitHubRelease :=
  if !env.newRequestOk then .error .requestError
  else if !env.doOk then .error .transportError
  else if env.status ≠ 200 then .error (.httpStatus env.status)
  else
    match env.body with
    | none => .error .decodeError
    | some r => .ok r

/-! ## `findAssetURL` -/

/-- The platform token computed by `findAssetURL` (lines 140-145):
`"<os>-<arch>"`, overridden to `"windows-<arch>.exe"` on Windows. -/
def platformToken (goos goarch : String) (isWin : Bool) : String :=
  let platform := goos ++ "-" ++ goarch
  if isWin then "windows-" ++ goarch ++ ".exe" else platform

/-- The scan loop of `findAssetURL` (lines 147-151): first asset whose
name contains the token, in published order; `""` when none. -/
def findAssetInAssets (platform : String) : List Asset → String
  | [] => ""
  | asset :: rest =>
    if goContains asset.name platform then asset.browserDownloadURL
    else findAssetInAssets platform rest

/-- Models `findAssetURL` (`update.go` lines 139-154). -/
def findAssetURL (goos goarch : String) (isWin : Bool) (release : GitHubRelease) : String :=
  findAssetInAssets (platformToken goos goarch isWin) release.assets

/-! ## `checkAndUpdate` -/

/-- The outcome of one `checkAndUpdate` call, distinguishing which
console message / error path was taken. -/
inductive UpdateOutcome where
  | checkFailed (e : FetchErr)
  | devSkip
  | alreadyLatest
  | noAsset
  | installFailed
  | updated
deriving DecidableEq, Repr

/-- Did `checkAndUpdate` return `nil` (success)? -/
def UpdateOutcome.isOk : UpdateOutcome → Bool
  | .devSkip => true
  | .alreadyLatest => true
  | .updated => true
  | _ => false

/-- Pipeline stages `checkAndUpdate` can reach after the version
comparison, recorded in execution order. -/
inductive UpdateAction where
  | selectAsset
  | download
deriving DecidableEq, Repr

/-- Environment of one `checkAndUpdate` call: the fetch environment, the
build-time `version` variable, the runtime platform, and the outcome of
`downloadAndInstallFunc`. -/
structure UpdateEnv where
  fetch : FetchEnv
  version : String
  goos : String
  goarch : String
  isWin : Bool
  installOk : Bool
deriving DecidableEq, Repr

/-- Models `checkAndUpdate` (`update.go` lines 72-112): fetch the latest
release, strip a leading `"v"` from both labels, short-circuit on the
`"dev"` sentinel and on textual equality, then select an asset, download
and install.  The second component records which later stages ran. -/
def checkAndUpdate (env : UpdateEnv) : UpdateOutcome × List UpdateAction :=
  match getLatestRelease env.fetch with
  | .error e => (.checkFailed e, [])
  | .ok release =>
    let latestVersion := goTrimLeading release.tagName "v"
    let currentVersion := goTrimLeading env.version "v"
    if currentVersion = "dev" then (.devSkip, [])
    else if latestVersion = currentVersion then (.alreadyLatest, [])
    else
      let assetURL := findAssetURL env.goos env.goarch env.isWin release
      if assetURL = "" then (.noAsset, [.selectAsset])
      else if env.installOk then (.updated, [.selectAsset, .download])
      else (.installFailed, [.selectAsset, .download])

/-! ## Filesystem model for `replaceExecutable`

A filesystem is an association list from paths to file contents; at most
the first binding of a path is visible.  `os.Rename` is atomic: on
failure nothing changes, on success the destination is overwritten and
the source disappears.  A rename can only succeed when the source
exists; any call may additionally fail by oracle (permissions, locks). -/

/-- A file path. -/
abbrev FsPath := String

/-- A filesystem: ordered bindings from paths to file contents. -/
abbrev FS := List (FsPath × String)

/-- Look a path up in the filesystem. -/
def fsGet : FS → FsPath → Option String
  | [], _ => none
  | (q, v) :: rest, p => if p = q then some v else fsGet rest p

/-- Remove every binding of a path (models `os.Remove` succeeding). -/
def fsDel : FS → FsPath → FS
  | [], _ => []
  | (q, v) :: rest, p => if p = q then fsDel rest p else (q, v) :: fsDel rest p

/-- Bind a path to new content, shadowing nothing (old bindings erased). -/
def fsPut (fs : FS) (p : FsPath) (v : String) : FS :=
  (p, v) :: fsDel fs p

/-- Effect of a successful `os.Rename(src, dst)`. -/
def fsRename (fs : FS) (src dst : FsPath) : FS :=
  match fsGet fs src with
  | none => fs
  | some v => fsPut (fsDel fs src) dst v

deriving instance DecidableEq for Except

/-- OS calls issued by `replaceExecutable`, in order of attempt. -/
inductive OsOp where
  | remove (p : FsPath)
  | rename (src dst : FsPath)
deriving DecidableEq, Repr

/-- Failure kinds of `replaceExecutable` (the two wrapped errors of
`update.go` lines 297-306 and 315-317). -/
inductive ReplErr where
  | backupError
  | installError
deriving DecidableEq, Repr

/-- Per-call-site success oracles for `replaceExecutable`: the stale
backup removal, the backup rename, the install rename, the best-effort
restore rename, and the delayed backup removal. -/
structure ReplaceEnv where
  removeBackupOk : Bool
  renameCurOk : Bool
  renameNewOk : Bool
  renameRestoreOk : Bool
  delayedRemoveOk : Bool
deriving DecidableEq, Repr

/-- Result of `replaceExecutable`: the Go return value, the final
filesystem, the filesystem after each attempted OS call (the initial
state first — these are the observable points), and the OS calls
attempted. -/
structure ReplResult where
  result : Except ReplErr Unit
  fs : FS
  states : List FS
  ops : List OsOp
deriving DecidableEq, Repr

/-- The Windows rename dance of `replaceExecutable` from the backup
rename onward (`update.go` lines 297-312), applied after the stale
backup removal has produced `fs1` from the initial `fs`: rename the
running executable to the backup path (failure: `backupError`), rename
the payload onto `currentPath` (failure: best-effort restore rename,
then `installError`), and on success a delayed best-effort removal of
the backup.  The `remove` of the stale backup is prepended to `ops` by
`replaceExecutable`. -/
def winDance (env : ReplaceEnv) (currentPath newPath backupPath : FsPath)
    (fs fs1 : FS) : ReplResult :=
  if env.renameCurOk && (fsGet fs1 currentPath).isSome then
    let fs2 := fsRename fs1 currentPath backupPath
    if env.renameNewOk && (fsGet fs2 newPath).isSome then
      let fs3 := fsRename fs2 newPath currentPath
      let fs4 := if env.delayedRemoveOk && (fsGet fs3 backupPath).isSome then
                   fsDel fs3 backupPath else fs3
      ⟨.ok (), fs4, [fs, fs1, fs2, fs3, fs4],
       [.rename currentPath backupPath, .rename newPath currentPath,
        .remove backupPath]⟩
    else
      if env.renameRestoreOk && (fsGet fs2 backupPath).isSome then
        let fs3 := fsRename fs2 backupPath currentPath
        ⟨.error .installError, fs3, [fs, fs1, fs2, fs2, fs3],
         [.rename currentPath backupPath, .rename newPath currentPath,
          .rename backupPath currentPath]⟩
      else
        ⟨.error .installError, fs2, [fs, fs1, fs2, fs2, fs2],
         [.rename currentPath backupPath, .rename newPath currentPath,
          .rename backupPath currentPath]⟩
  else
    ⟨.error .backupError, fs1, [fs, fs1, fs1],
     [.rename currentPath backupPath]⟩

/-- The filesystem after the best-effort removal of a stale backup at
`currentPath + ".old"` (`update.go` line 294; the `os.Remove` error is
ignored, and the call can only change anything when the file exists). -/
def staleBackupRemoved (env : ReplaceEnv) (currentPath : FsPath) (fs : FS) : FS :=
  if env.removeBackupOk && (fsGet fs (currentPath ++ ".old")).isSome then
    fsDel fs (currentPath ++ ".old") else fs

/-- Models `replaceExecutable` (`update.go` lines 288-321).  Windows
branch: best-effort removal of a stale backup at `currentPath + ".old"`,
then the rename dance `winDance`.  Non-Windows branch: one rename of the
payload onto `currentPath` (failure: `installError`). -/
def replaceExecutable (isWin : Bool) (env : ReplaceEnv)
    (currentPath newPath : FsPath) (fs : FS) : ReplResult :=
  if isWin then
    let backupPath := currentPath ++ ".old"
    let fs1 := staleBackupRemoved env currentPath fs
    let r := winDance env currentPath newPath backupPath fs fs1
    ⟨r.result, r.fs, r.states, .remove backupPath :: r.ops⟩
  else
    if env.renameNewOk && (fsGet fs newPath).isSome then
      ⟨.ok (), fsRename fs newPath currentPath,
       [fs, fsRename fs newPath currentPath], [.rename newPath currentPath]⟩
    else
      ⟨.error .installError, fs, [fs, fs], [.rename newPath currentPath]⟩

/-! ## Archive extraction -/

/-- One archive entry (a zip `file.Name`/bytes or a tar `header.Name`/bytes). -/
structure ArchiveEntry where
  name : String
  content : String
deriving DecidableEq, Repr

/-- Failure kinds of the extractors. -/
inductive ExtractErr where
  | openFailed
  | createFailed
  | copyFailed
  | payloadNotFound
deriving DecidableEq, Repr

/-- A successful extraction: output path, the entry that was treated as
the payload, and the bytes written. -/
structure ExtractSuccess where
  path : String
  entryName : String
  content : String
deriving DecidableEq, Repr

/-- Per-call-site success oracles for the extractors: `zipFileOpen`,
`osCreate`, `ioCopy`, `osChmod`. -/
structure ExtractEnv where
  openOk : Bool
  createOk : Bool
  copyOk : Bool
  chmodOk : Bool
deriving DecidableEq, Repr

/-- Result of `extractTarGz`: the Go return value and the attempted
chmod calls as (path, succeeded) pairs. -/
structure TarResult where
  result : Except ExtractErr ExtractSuccess
  chmodCalls : List (String × Bool)
deriving DecidableEq, Repr

/-- Models the entry loop of `extractTarGz` (`update.go` lines 253-285):
the first entry whose FULL name contains `"secret_manager"` is the
payload; the output path joins the temp dir with the entry's BASE name;
on non-Windows a chmod to 0755 is attempted and its error discarded. -/
def extractTarGz (env : ExtractEnv) (isWin : Bool) (tmpDir : String) :
    List ArchiveEntry → TarResult
  | [] => ⟨.error .payloadNotFound, []⟩
  | e :: rest =>
    if goContains e.name "secret_manager" then
      let extractPath := goJoin tmpDir (goBase e.name)
      if !env.createOk then ⟨.error .createFailed, []⟩
      else if !env.copyOk then ⟨.error .copyFailed, []⟩
      else if !isWin then
        ⟨.ok ⟨extractPath, e.name, e.content⟩, [(extractPath, env.chmodOk)]⟩
      else
        ⟨.ok ⟨extractPath, e.name, e.content⟩, []⟩
    else extractTarGz env isWin tmpDir rest

/-- Models the entry loop of `extractZip` (`update.go` lines 210-235):
the first entry whose full name contains `"secret_manager"` is the
payload; the output path joins the temp dir with the FULL entry name
(directory components kept); no chmod. -/
def extractZip (env : ExtractEnv) (tmpDir : String) :
    List ArchiveEntry → Except ExtractErr ExtractSuccess
  | [] => .error .payloadNotFound
  | e :: rest =>
    if goContains e.name "secret_manager" then
      let extractPath := goJoin tmpDir e.name
      if !env.openOk then .error .openFailed
      else if !env.createOk then .error .createFailed
      else if !env.copyOk then .error .copyFailed
      else .ok ⟨extractPath, e.name, e.content⟩
    else extractZip env tmpDir rest

/-! ## Concrete fixtures used by counterexamples and witnesses -/

/-- A release carrying the asset names used in the repository's tests. -/
def relFix : GitHubRelease :=
  ⟨"v1.1.0", "r",
   [⟨"secret_manager-linux-amd64", "https://example/linux"⟩,
    ⟨"secret_manager-windows-amd64.exe", "https://example/win"⟩]⟩

/-- A filesystem with the running executable and a downloaded payload. -/
def fsFix : FS := [("/app/sm", "oldbin"), ("/tmp/new", "newbin")]

/-- Oracle environment in which every OS call succeeds. -/
def envAllOk : ReplaceEnv := ⟨true, true, true, true, true⟩

/-- Oracle environment where the install rename and the restore rename
both fail. -/
def envNoRestore : ReplaceEnv := ⟨true, true, false, false, true⟩

/-- Oracle environment where the install rename fails but the restore
rename succeeds. -/
def envRestore : ReplaceEnv := ⟨true, true, false, true, true⟩

/-- A release whose normalized tag equals the running version used in
witnesses. -/
def relLatest : GitHubRelease := ⟨"v1.0.0", "r", []⟩

/-- Update environment for the "already latest" witness. -/
def envC2 : UpdateEnv :=
  ⟨⟨true, true, 200, some relLatest⟩, "v1.0.0", "linux", "amd64", false, true⟩

/-- Update environment for the development-sentinel witness. -/
def envC3 : UpdateEnv :=
  ⟨⟨true, true, 200, some relFix⟩, "dev", "linux", "amd64", false, true⟩

/-- Fetch environment with a success (2xx) but non-200 status and a
well-formed body. -/
def fetch201 : FetchEnv := ⟨true, true, 201, some relFix⟩

/-- Extraction oracle environment in which every call succeeds. -/
def extOk : ExtractEnv := ⟨true, true, true, true⟩

/-- Extraction oracle environment in which only the chmod call fails. -/
def extChmodFail : ExtractEnv := ⟨true, true, true, false⟩

/-! # Theorems -/

/-! ## Helper lemmas on the filesystem model -/

theorem fsGet_fsDel_ne (fs : FS) (p q : FsPath) (h : q ≠ p) :
    fsGet (fsDel fs p) q = fsGet fs q := by
  induction fs with
  | nil => rfl
  | cons e rest ih =>
    obtain ⟨a, v⟩ := e
    by_cases hp : p = a
    · subst hp
      simp [fsDel, fsGet, h, ih]
    · by_cases hq : q = a <;> simp [fsDel, fsGet, hp, hq, ih]

theorem fsGet_fsPut_self (fs : FS) (p : FsPath) (v : String) :
    fsGet (fsPut fs p v) p = some v := by
  simp [fsPut, fsGet]

theorem fsGet_fsPut_ne (fs : FS) (p q : FsPath) (v : String) (h : q ≠ p) :
    fsGet (fsPut fs p v) q = fsGet fs q := by
  simp [fsPut, fsGet, h, fsGet_fsDel_ne fs p q h]

theorem fsRename_of_get (fs : FS) (src dst : FsPath) (v : String)
    (h : fsGet fs src = some v) :
    fsRename fs src dst = fsPut (fsDel fs src) dst v := by
  simp [fsRename, h]

theorem string_ne_append_old (s : String) : s ≠ s ++ ".old" := by
  intro h
  have hl := congrArg String.length h
  rw [String.length_append] at hl
  have h4 : (".old" : String).length = 4 := rfl
  rw [h4] at hl
  omega

/-! ## Helper lemmas on asset selection -/

theorem findAssetInAssets_all_miss (tok : String) (l : List Asset)
    (h : (l.all fun a => !goContains a.name tok) = true) :
    findAssetInAssets tok l = "" := by
  induction l with
  | nil => rfl
  | cons a rest ih =>
    simp only [List.all_cons, Bool.and_eq_true, Bool.not_eq_true'] at h
    simp [findAssetInAssets, h.1, ih h.2]

theorem findAssetInAssets_first_hit (tok : String) (l1 : List Asset) (a : Asset)
    (l2 : List Asset)
    (h1 : (l1.all fun b => !goContains b.name tok) = true)
    (h2 : goContains a.name tok = true) :
    findAssetInAssets tok (l1 ++ a :: l2) = a.browserDownloadURL := by
  induction l1 with
  | nil => simp [findAssetInAssets, h2]
  | cons b rest ih =>
    simp only [List.all_cons, Bool.and_eq_true, Bool.not_eq_true'] at h1
    simp [findAssetInAssets, h1.1, ih h1.2]

/-! ## Claim theorems -/

/-- Claim C2: when the fetch succeeds, the running label does not
normalize to the development sentinel, and the normalized remote tag is
textually equal to the normalized running label, `checkAndUpdate`
returns success reporting "already latest" and no asset selection,
download or replacement stage runs (the action list is empty). -/
theorem checkAndUpdate_already_latest (env : UpdateEnv) (release : GitHubRelease)
    (hfetch : getLatestRelease env.fetch = .ok release)
    (hdev : goTrimLeading env.version "v" ≠ "dev")
    (heq : goTrimLeading release.tagName "v" = goTrimLeading env.version "v") :
    checkAndUpdate env = (UpdateOutcome.alreadyLatest, []) := by
  simp [checkAndUpdate, hfetch, hdev, heq]

/-- Witness for C2 at a concrete environment. -/
theorem checkAndUpdate_already_latest_witness :
    checkAndUpdate envC2 = (UpdateOutcome.alreadyLatest, []) :=
  checkAndUpdate_already_latest envC2 relLatest (by decide) (by decide) (by decide)

/-- Claim C3: when the fetch succeeds and the running label normalizes
to the development sentinel `"dev"`, `checkAndUpdate` returns success
reporting "no update performed", with no asset selection or download,
for every remote tag value. -/
theorem checkAndUpdate_dev_skips (env : UpdateEnv) (release : GitHubRelease)
    (hfetch : getLatestRelease env.fetch = .ok release)
    (hdev : goTrimLeading env.version "v" = "dev") :
    checkAndUpdate env = (UpdateOutcome.devSkip, []) := by
  simp [checkAndUpdate, hfetch, hdev]

/-- Witness for C3 at a concrete environment. -/
theorem checkAndUpdate_dev_skips_witness :
    checkAndUpdate envC3 = (UpdateOutcome.devSkip, []) :=
  checkAndUpdate_dev_skips envC3 relFix (by decide) (by decide)

/-- Claim C4: `findAssetURL` computes the token `"windows-<arch>.exe"`
on Windows and `"<os>-<arch>"` otherwise, scans assets in published
order returning the URL of the first asset whose name contains the
token, and returns the empty string when no asset name contains it. -/
theorem findAssetURL_first_match (goos goarch : String) (isWin : Bool)
    (release : GitHubRelease) :
    platformToken goos goarch isWin
      = (if isWin then "windows-" ++ goarch ++ ".exe" else goos ++ "-" ++ goarch)
    ∧ ((release.assets.all
          fun a => !goContains a.name (platformToken goos goarch isWin)) = true →
        findAssetURL goos goarch isWin release = "")
    ∧ (∀ l1 a l2, release.assets = l1 ++ a :: l2 →
        (l1.all fun b => !goContains b.name (platformToken goos goarch isWin)) = true →
        goContains a.name (platformToken goos goarch isWin) = true →
        findAssetURL goos goarch isWin release = a.browserDownloadURL) := by
  refine ⟨rfl, fun h => findAssetInAssets_all_miss _ _ h, ?_⟩
  intro l1 a l2 hsplit h1 h2
  unfold findAssetURL
  rw [hsplit]
  exact findAssetInAssets_first_hit _ _ _ _ h1 h2

/-- Witness for C4: first match wins on the repository's test asset
list, and an absent platform token yields the empty string. -/
theorem findAssetURL_first_match_witness :
    findAssetURL "linux" "amd64" false relFix = "https://example/linux"
    ∧ findAssetURL "darwin" "arm64" false relFix = "" :=
  ⟨(findAssetURL_first_match "linux" "amd64" false relFix).2.2 []
      ⟨"secret_manager-linux-amd64", "https://example/linux"⟩
      [⟨"secret_manager-windows-amd64.exe", "https://example/win"⟩]
      rfl (by decide) (by decide),
   (findAssetURL_first_match "darwin" "arm64" false relFix).2.1 (by decide)⟩

/-- Claim C8 counterexample: a response with the success (2xx) status
201 and a well-formed body makes `getLatestRelease` fail carrying 201
instead of returning the decoded metadata — the code accepts only
status 200 exactly, not every 2xx status. -/
theorem getLatestRelease_C8_counterexample :
    getLatestRelease fetch201 = .error (.httpStatus 201)
    ∧ getLatestRelease fetch201 ≠ .ok relFix
    ∧ 200 ≤ 201 ∧ 201 < 300 := by decide

/-- Claim C8 amended: when request creation and transport succeed,
`getLatestRelease` fails with an error carrying the HTTP status code
exactly when the status is not 200 (`http.StatusOK`), and for a status
of exactly 200 with a well-formed JSON body it returns the decoded
release metadata. -/
theorem getLatestRelease_status_200 (env : FetchEnv) (r : GitHubRelease)
    (h1 : env.newRequestOk = true) (h2 : env.doOk = true) :
    (env.status ≠ 200 → getLatestRelease env = .error (.httpStatus env.status))
    ∧ (env.status = 200 → env.body = some r → getLatestRelease env = .ok r) := by
  constructor
  · intro hs
    simp [getLatestRelease, h1, h2, hs]
  · intro hs hb
    simp [getLatestRelease, h1, h2, hs, hb]

/-- Witness for the amended C8 at concrete statuses 404 and 200. -/
theorem getLatestRelease_status_200_witness :
    getLatestRelease ⟨true, true, 404, some relFix⟩ = .error (.httpStatus 404)
    ∧ getLatestRelease ⟨true, true, 200, some relFix⟩ = .ok relFix :=
  ⟨(getLatestRelease_status_200 ⟨true, true, 404, some relFix⟩ relFix rfl rfl).1
      (by decide),
   (getLatestRelease_status_200 ⟨true, true, 200, some relFix⟩ relFix rfl rfl).2
      rfl rfl⟩

/-! ## Helper lemmas on the Windows rename dance -/

theorem winDance_states_inv (env : ReplaceEnv) (cur new bp : FsPath) (fs fs1 : FS)
    (c : String) (hfs : fsGet fs cur = some c) (hfs1 : fsGet fs1 cur = some c)
    (hne : cur ≠ bp) :
    ((winDance env cur new bp fs fs1).states.all
      fun s => (fsGet s cur).isSome || (fsGet s bp).isSome) = true := by
  simp only [winDance]
  cases h2 : env.renameCurOk && (fsGet fs1 cur).isSome with
  | false =>
    rw [if_neg (by simp [h2])]
    simp [hfs, hfs1]
  | true =>
    rw [if_pos rfl]
    have hren2 : fsRename fs1 cur bp = fsPut (fsDel fs1 cur) bp c :=
      fsRename_of_get _ _ _ _ hfs1
    have hbp2 : fsGet (fsRename fs1 cur bp) bp = some c := by
      rw [hren2]; exact fsGet_fsPut_self _ _ _
    cases h3 : env.renameNewOk && (fsGet (fsRename fs1 cur bp) new).isSome with
    | false =>
      rw [if_neg (by simp)]
      cases h4 : env.renameRestoreOk && (fsGet (fsRename fs1 cur bp) bp).isSome with
      | false =>
        rw [if_neg (by simp)]
        simp [hfs, hfs1, hbp2]
      | true =>
        rw [if_pos rfl]
        have hren3 : fsRename (fsRename fs1 cur bp) bp cur
            = fsPut (fsDel (fsRename fs1 cur bp) bp) cur c :=
          fsRename_of_get _ _ _ _ hbp2
        simp [hfs, hfs1, hbp2, hren3, fsGet_fsPut_self]
    | true =>
      rw [if_pos rfl]
      have hnew := (Bool.and_eq_true_iff.mp h3).2
      obtain ⟨w, hw⟩ := Option.isSome_iff_exists.mp hnew
      have hren3 : fsRename (fsRename fs1 cur bp) new cur
          = fsPut (fsDel (fsRename fs1 cur bp) new) cur w :=
        fsRename_of_get _ _ _ _ hw
      have hcur3 : fsGet (fsRename (fsRename fs1 cur bp) new cur) cur = some w := by
        rw [hren3]; exact fsGet_fsPut_self _ _ _
      cases h5 : env.delayedRemoveOk
          && (fsGet (fsRename (fsRename fs1 cur bp) new cur) bp).isSome with
      | false =>
        rw [if_neg (by simp)]
        simp [hfs, hfs1, hbp2, hcur3]
      | true =>
        rw [if_pos rfl]
        have hcur4 : fsGet (fsDel (fsRename (fsRename fs1 cur bp) new cur) bp) cur
            = some w := by
          rw [fsGet_fsDel_ne _ _ _ hne]; exact hcur3
        simp [hfs, hfs1, hbp2, hcur3, hcur4]

theorem winDance_rollback (env : ReplaceEnv) (cur new bp : FsPath) (fs fs1 : FS)
    (c : String) (hfs1 : fsGet fs1 cur = some c)
    (h2 : env.renameCurOk = true) (h3 : env.renameNewOk = false) :
    (winDance env cur new bp fs fs1).result = .error .installError
    ∧ (winDance env cur new bp fs fs1).ops
        = [.rename cur bp, .rename new cur, .rename bp cur]
    ∧ (env.renameRestoreOk = true →
        fsGet (winDance env cur new bp fs fs1).fs cur = some c) := by
  have hcond2 : (env.renameCurOk && (fsGet fs1 cur).isSome) = true := by
    simp [h2, hfs1]
  have hren2 : fsRename fs1 cur bp = fsPut (fsDel fs1 cur) bp c :=
    fsRename_of_get _ _ _ _ hfs1
  have hbp2 : fsGet (fsRename fs1 cur bp) bp = some c := by
    rw [hren2]; exact fsGet_fsPut_self _ _ _
  have hcond3 : (env.renameNewOk && (fsGet (fsRename fs1 cur bp) new).isSome)
      = false := by simp [h3]
  simp only [winDance]
  rw [if_pos hcond2, if_neg (by simp [hcond3])]
  cases h4 : env.renameRestoreOk with
  | false =>
    rw [if_neg (by simp)]
    simp
  | true =>
    rw [if_pos (show (true && (fsGet (fsRename fs1 cur bp) bp).isSome) = true by
      simp [hbp2])]
    have hren3 : fsRename (fsRename fs1 cur bp) bp cur
        = fsPut (fsDel (fsRename fs1 cur bp) bp) cur c :=
      fsRename_of_get _ _ _ _ hbp2
    simp [hren3, fsGet_fsPut_self]

/-- Claim C1 counterexample: on Windows, on a run where every OS call
succeeds, the observable state right after the backup rename has no
executable at `currentPath`, so the claimed invariant fails even on a
success path (and it also fails at the end of the run where both the
install and the restore rename fail). -/
theorem replaceExecutable_C1_counterexample :
    ((replaceExecutable true envAllOk "/app/sm" "/tmp/new" fsFix).states.all
      fun s => (fsGet s "/app/sm").isSome) = false
    ∧ (replaceExecutable true envAllOk "/app/sm" "/tmp/new" fsFix).result = .ok () := by
  decide

/-- Claim C1 amended: the Unix single-rename branch never leaves
`currentPath` empty at any observable point; the Windows rename dance
guarantees only that at every observable point an executable exists at
`currentPath` or at the backup path `currentPath + ".old"` —
`currentPath` itself is empty between the backup rename and the install
(or restore) rename, and stays empty when both fail. -/
theorem replaceExecutable_slot_or_backup (env : ReplaceEnv) (cur new : FsPath)
    (fs : FS) (h : (fsGet fs cur).isSome = true) :
    ((replaceExecutable true env cur new fs).states.all
        fun s => (fsGet s cur).isSome || (fsGet s (cur ++ ".old")).isSome) = true
    ∧ ((replaceExecutable false env cur new fs).states.all
        fun s => (fsGet s cur).isSome) = true := by
  obtain ⟨c, hc⟩ := Option.isSome_iff_exists.mp h
  have hne : cur ≠ cur ++ ".old" := string_ne_append_old cur
  constructor
  · have hfs1 : fsGet (staleBackupRemoved env cur fs) cur = some c := by
      unfold staleBackupRemoved
      split
      · rw [fsGet_fsDel_ne _ _ _ hne]; exact hc
      · exact hc
    have hall := winDance_states_inv env cur new (cur ++ ".old") fs
      (staleBackupRemoved env cur fs) c hc hfs1 hne
    simpa [replaceExecutable] using hall
  · simp only [replaceExecutable]
    rw [if_neg (by simp)]
    cases hinstall : env.renameNewOk && (fsGet fs new).isSome with
    | true =>
      rw [if_pos rfl]
      have hnew := (Bool.and_eq_true_iff.mp hinstall).2
      obtain ⟨w, hw⟩ := Option.isSome_iff_exists.mp hnew
      simp [fsRename_of_get fs new cur w hw, fsGet_fsPut_self, hc]
    | false =>
      rw [if_neg (by simp)]
      simp [hc]

/-- Witness for the amended C1 at a concrete filesystem and oracle. -/
theorem replaceExecutable_slot_or_backup_witness :
    ((replaceExecutable true envAllOk "/app/sm" "/tmp/new" fsFix).states.all
        fun s => (fsGet s "/app/sm").isSome
          || (fsGet s ("/app/sm" ++ ".old")).isSome) = true
    ∧ ((replaceExecutable false envAllOk "/app/sm" "/tmp/new" fsFix).states.all
        fun s => (fsGet s "/app/sm").isSome) = true :=
  replaceExecutable_slot_or_backup envAllOk "/app/sm" "/tmp/new" fsFix (by decide)

/-- Claim C5 counterexample: with the install rename and the best-effort
restore rename both failing, `replaceExecutable` on Windows returns
`installError` but `currentPath` is NOT restored to its pre-swap content
— the slot is left empty (the restore error is discarded by the code). -/
theorem replaceExecutable_C5_counterexample :
    (replaceExecutable true envNoRestore "/app/sm" "/tmp/new" fsFix).result
      = .error .installError
    ∧ fsGet fsFix "/app/sm" = some "oldbin"
    ∧ fsGet (replaceExecutable true envNoRestore "/app/sm" "/tmp/new" fsFix).fs
        "/app/sm" ≠ some "oldbin" := by
  decide

/-- Claim C5 amended: in the Windows branch, when the backup rename
succeeded and the install rename fails, the function attempts the
restore rename of the backup onto `currentPath` and fails with an
`InstallError`; `currentPath` is restored to its pre-swap content
whenever that best-effort restore rename itself succeeds. -/
theorem replaceExecutable_windows_rollback (env : ReplaceEnv) (cur new : FsPath)
    (fs : FS) (c : String) (hcur : fsGet fs cur = some c)
    (hback : env.renameCurOk = true) (hfail : env.renameNewOk = false) :
    (replaceExecutable true env cur new fs).result = .error .installError
    ∧ (replaceExecutable true env cur new fs).ops
        = [.remove (cur ++ ".old"), .rename cur (cur ++ ".old"),
           .rename new cur, .rename (cur ++ ".old") cur]
    ∧ (env.renameRestoreOk = true →
        fsGet (replaceExecutable true env cur new fs).fs cur = some c) := by
  have hne : cur ≠ cur ++ ".old" := string_ne_append_old cur
  have hfs1 : fsGet (staleBackupRemoved env cur fs) cur = some c := by
    unfold staleBackupRemoved
    split
    · rw [fsGet_fsDel_ne _ _ _ hne]; exact hcur
    · exact hcur
  have hmain := winDance_rollback env cur new (cur ++ ".old") fs
    (staleBackupRemoved env cur fs) c hfs1 hback hfail
  refine ⟨?_, ?_, ?_⟩
  · simpa [replaceExecutable] using hmain.1
  · have hops := hmain.2.1
    simp [replaceExecutable, hops]
  · intro hres
    simpa [replaceExecutable] using hmain.2.2 hres

/-- Witness for the amended C5 at a concrete filesystem and oracle. -/
theorem replaceExecutable_windows_rollback_witness :
    (replaceExecutable true envRestore "/app/sm" "/tmp/new" fsFix).result
      = .error .installError
    ∧ (replaceExecutable true envRestore "/app/sm" "/tmp/new" fsFix).ops
        = [.remove "/app/sm.old", .rename "/app/sm" "/app/sm.old",
           .rename "/tmp/new" "/app/sm", .rename "/app/sm.old" "/app/sm"]
    ∧ fsGet (replaceExecutable true envRestore "/app/sm" "/tmp/new" fsFix).fs
        "/app/sm" = some "oldbin" := by
  have h := replaceExecutable_windows_rollback envRestore "/app/sm" "/tmp/new"
    fsFix "oldbin" (by decide) rfl rfl
  exact ⟨h.1, by simpa using h.2.1, h.2.2 rfl⟩

/-- Claim C6: on every non-Windows platform `replaceExecutable` attempts
exactly one OS operation, the rename of the payload onto the current
executable's path; when that rename fails it returns `installError` and
the filesystem — in particular the original executable — is untouched. -/
theorem replaceExecutable_unix_single_rename (env : ReplaceEnv)
    (cur new : FsPath) (fs : FS) :
    (replaceExecutable false env cur new fs).ops = [.rename new cur]
    ∧ ((env.renameNewOk = false ∨ fsGet fs new = none) →
        (replaceExecutable false env cur new fs).result = .error .installError
        ∧ (replaceExecutable false env cur new fs).fs = fs) := by
  constructor
  · cases hinstall : env.renameNewOk && (fsGet fs new).isSome <;>
      simp [replaceExecutable, hinstall]
  · intro hfail
    have hcond : (env.renameNewOk && (fsGet fs new).isSome) = false := by
      rcases hfail with h | h <;> simp [h]
    simp [replaceExecutable, hcond]

/-- Witness for C6 at a concrete filesystem and a failing rename. -/
theorem replaceExecutable_unix_single_rename_witness :
    (replaceExecutable false envRestore "/app/sm" "/tmp/new" fsFix).ops
      = [.rename "/tmp/new" "/app/sm"]
    ∧ (replaceExecutable false envRestore "/app/sm" "/tmp/new" fsFix).result
        = .error .installError
    ∧ (replaceExecutable false envRestore "/app/sm" "/tmp/new" fsFix).fs = fsFix := by
  have h := replaceExecutable_unix_single_rename envRestore "/app/sm" "/tmp/new" fsFix
  exact ⟨h.1, (h.2 (Or.inl rfl)).1, (h.2 (Or.inl rfl)).2⟩

/-! ## Helper lemmas on the extractors -/

theorem extractTarGz_no_match (env : ExtractEnv) (isWin : Bool) (tmpDir : String)
    (l : List ArchiveEntry)
    (h : (l.all fun b => !goContains b.name "secret_manager") = true) :
    (extractTarGz env isWin tmpDir l).result = .error .payloadNotFound := by
  induction l with
  | nil => rfl
  | cons b rest ih =>
    simp only [List.all_cons, Bool.and_eq_true, Bool.not_eq_true'] at h
    simp [extractTarGz, h.1, ih h.2]

theorem extractTarGz_first_hit_full (env : ExtractEnv) (tmpDir : String)
    (l1 : List ArchiveEntry) (e : ArchiveEntry) (l2 : List ArchiveEntry)
    (h1 : (l1.all fun b => !goContains b.name "secret_manager") = true)
    (h2 : goContains e.name "secret_manager" = true)
    (hcr : env.createOk = true) (hcp : env.copyOk = true) :
    extractTarGz env false tmpDir (l1 ++ e :: l2)
      = ⟨.ok ⟨goJoin tmpDir (goBase e.name), e.name, e.content⟩,
         [(goJoin tmpDir (goBase e.name), env.chmodOk)]⟩ := by
  induction l1 with
  | nil => simp [extractTarGz, h2, hcr, hcp]
  | cons b rest ih =>
    simp only [List.all_cons, Bool.and_eq_true, Bool.not_eq_true'] at h1
    simp [extractTarGz, h1.1, ih h1.2]

theorem extractTarGz_first_hit (env : ExtractEnv) (isWin : Bool) (tmpDir : String)
    (l1 : List ArchiveEntry) (e : ArchiveEntry) (l2 : List ArchiveEntry)
    (h1 : (l1.all fun b => !goContains b.name "secret_manager") = true)
    (h2 : goContains e.name "secret_manager" = true)
    (hcr : env.createOk = true) (hcp : env.copyOk = true) :
    (extractTarGz env isWin tmpDir (l1 ++ e :: l2)).result
      = .ok ⟨goJoin tmpDir (goBase e.name), e.name, e.content⟩ := by
  induction l1 with
  | nil => cases isWin <;> simp [extractTarGz, h2, hcr, hcp]
  | cons b rest ih =>
    simp only [List.all_cons, Bool.and_eq_true, Bool.not_eq_true'] at h1
    simp [extractTarGz, h1.1, ih h1.2]

theorem extractZip_first_hit (env : ExtractEnv) (tmpDir : String)
    (l1 : List ArchiveEntry) (e : ArchiveEntry) (l2 : List ArchiveEntry)
    (h1 : (l1.all fun b => !goContains b.name "secret_manager") = true)
    (h2 : goContains e.name "secret_manager" = true)
    (ho : env.openOk = true) (hcr : env.createOk = true) (hcp : env.copyOk = true) :
    extractZip env tmpDir (l1 ++ e :: l2)
      = .ok ⟨goJoin tmpDir e.name, e.name, e.content⟩ := by
  induction l1 with
  | nil => simp [extractZip, h2, ho, hcr, hcp]
  | cons b rest ih =>
    simp only [List.all_cons, Bool.and_eq_true, Bool.not_eq_true'] at h1
    simp [extractZip, h1.1, ih h1.2]

theorem string_append_slash_ne_empty (d b : String) : d ++ "/" ++ b ≠ "" := by
  intro h
  have hl := congrArg String.length h
  rw [String.length_append, String.length_append] at hl
  have h1 : ("/" : String).length = 1 := rfl
  have h0 : ("" : String).length = 0 := rfl
  rw [h1, h0] at hl
  omega

/-- Claim C7 counterexample: the tar entry `"secret_manager-1.0/readme.txt"`
is treated as the payload although its base name `"readme.txt"` does not
contain `"secret_manager"` — matching uses the full entry name (line 262
of `update.go`), not the base name. -/
theorem extractTarGz_C7_counterexample :
    (extractTarGz extOk false "/tmp" [⟨"secret_manager-1.0/readme.txt", "docs"⟩]).result
      = .ok ⟨"/tmp/readme.txt", "secret_manager-1.0/readme.txt", "docs"⟩
    ∧ goContains (goBase "secret_manager-1.0/readme.txt") "secret_manager" = false := by
  decide

/-- Claim C7 amended: `extractTarGz` treats an entry as the payload
exactly when its FULL name (directory components included) contains
`"secret_manager"`, taking the first such entry in order; only the
extraction output path uses the entry's base name (joined to the temp
directory).  When no entry's full name contains the identifier the
result is the payload-not-found error. -/
theorem extractTarGz_full_name_match (env : ExtractEnv) (isWin : Bool)
    (tmpDir : String) (l l1 : List ArchiveEntry) (e : ArchiveEntry)
    (l2 : List ArchiveEntry)
    (hcr : env.createOk = true) (hcp : env.copyOk = true) :
    ((l.all fun b => !goContains b.name "secret_manager") = true →
      (extractTarGz env isWin tmpDir l).result = .error .payloadNotFound)
    ∧ ((l1.all fun b => !goContains b.name "secret_manager") = true →
       goContains e.name "secret_manager" = true →
       (extractTarGz env isWin tmpDir (l1 ++ e :: l2)).result
         = .ok ⟨goJoin tmpDir (goBase e.name), e.name, e.content⟩) :=
  ⟨fun h => extractTarGz_no_match env isWin tmpDir l h,
   fun h1 h2 => extractTarGz_first_hit env isWin tmpDir l1 e l2 h1 h2 hcr hcp⟩

/-- Witness for the amended C7 at concrete archives. -/
theorem extractTarGz_full_name_match_witness :
    (extractTarGz extOk false "/tmp" [⟨"src/main.go", "m"⟩]).result
      = Except.error ExtractErr.payloadNotFound
    ∧ (extractTarGz extOk false "/tmp"
          ([⟨"src/main.go", "m"⟩] ++ ⟨"dist/secret_manager", "bin"⟩ :: [])).result
      = Except.ok ⟨goJoin "/tmp" (goBase "dist/secret_manager"),
          "dist/secret_manager", "bin"⟩ := by
  have h := extractTarGz_full_name_match extOk false "/tmp"
    [⟨"src/main.go", "m"⟩] [⟨"src/main.go", "m"⟩] ⟨"dist/secret_manager", "bin"⟩ []
    rfl rfl
  exact ⟨h.1 (by decide), h.2 (by decide) (by decide)⟩

/-- Claim C9: on non-Windows, the failure of the chmod-0755 call on the
extracted file is discarded — `extractTarGz` still returns the extracted
path as success even when the chmod oracle fails, and the failed chmod
attempt is the one recorded call. -/
theorem extractTarGz_chmod_failure_ignored (env : ExtractEnv) (tmpDir : String)
    (l1 : List ArchiveEntry) (e : ArchiveEntry) (l2 : List ArchiveEntry)
    (h1 : (l1.all fun b => !goContains b.name "secret_manager") = true)
    (h2 : goContains e.name "secret_manager" = true)
    (hcr : env.createOk = true) (hcp : env.copyOk = true)
    (hch : env.chmodOk = false) :
    (extractTarGz env false tmpDir (l1 ++ e :: l2)).result
      = .ok ⟨goJoin tmpDir (goBase e.name), e.name, e.content⟩
    ∧ (extractTarGz env false tmpDir (l1 ++ e :: l2)).chmodCalls
      = [(goJoin tmpDir (goBase e.name), false)] := by
  have h := extractTarGz_first_hit_full env tmpDir l1 e l2 h1 h2 hcr hcp
  rw [h]
  exact ⟨rfl, by rw [hch]⟩

/-- Witness for C9 at a concrete archive with a failing chmod. -/
theorem extractTarGz_chmod_failure_ignored_witness :
    (extractTarGz extChmodFail false "/tmp" ([] ++ ⟨"secret_manager", "bin"⟩ :: [])).result
      = Except.ok ⟨goJoin "/tmp" (goBase "secret_manager"), "secret_manager", "bin"⟩
    ∧ (extractTarGz extChmodFail false "/tmp"
          ([] ++ ⟨"secret_manager", "bin"⟩ :: [])).chmodCalls
      = [(goJoin "/tmp" (goBase "secret_manager"), false)] :=
  extractTarGz_chmod_failure_ignored extChmodFail "/tmp" [] ⟨"secret_manager", "bin"⟩ []
    rfl (by decide) rfl rfl rfl

/-- Claim C10: `extractZip` writes the payload to the temp directory
joined with the FULL zip entry name (directory components kept), unlike
`extractTarGz` on the same entries which joins only the base name; a
matching entry named `d ++ "/" ++ b` is targeted at
`tmpDir ++ "/" ++ (d ++ "/" ++ b)`, a temp-directory subpath carrying
the directory prefix `d`. -/
theorem extractZip_joins_full_name (env : ExtractEnv) (tmpDir : String)
    (l1 : List ArchiveEntry) (e : ArchiveEntry) (l2 : List ArchiveEntry)
    (h1 : (l1.all fun b => !goContains b.name "secret_manager") = true)
    (h2 : goContains e.name "secret_manager" = true)
    (ho : env.openOk = true) (hcr : env.createOk = true) (hcp : env.copyOk = true) :
    extractZip env tmpDir (l1 ++ e :: l2)
      = .ok ⟨goJoin tmpDir e.name, e.name, e.content⟩
    ∧ (extractTarGz env false tmpDir (l1 ++ e :: l2)).result
      = .ok ⟨goJoin tmpDir (goBase e.name), e.name, e.content⟩
    ∧ (∀ d b, e.name = d ++ "/" ++ b → tmpDir ≠ "" →
        goJoin tmpDir e.name = tmpDir ++ "/" ++ (d ++ "/" ++ b)) := by
  refine ⟨extractZip_first_hit env tmpDir l1 e l2 h1 h2 ho hcr hcp,
    extractTarGz_first_hit env false tmpDir l1 e l2 h1 h2 hcr hcp, ?_⟩
  intro d b hname htmp
  rw [hname]
  unfold goJoin
  rw [if_neg ?hc1, if_neg ?hc2]
  case hc1 =>
    simp only [String.isEmpty_iff]
    exact htmp
  case hc2 =>
    simp only [String.isEmpty_iff]
    exact string_append_slash_ne_empty d b

/-- Witness for C10 at a concrete zip archive whose matching entry
carries a directory prefix. -/
theorem extractZip_joins_full_name_witness :
    extractZip extOk "/tmp"
        ([⟨"README.md", "r"⟩] ++ ⟨"dist/secret_manager-linux-amd64", "payload"⟩ :: [])
      = Except.ok ⟨goJoin "/tmp" "dist/secret_manager-linux-amd64",
          "dist/secret_manager-linux-amd64", "payload"⟩
    ∧ (extractTarGz extOk false "/tmp"
          ([⟨"README.md", "r"⟩] ++ ⟨"dist/secret_manager-linux-amd64", "payload"⟩ :: [])).result
      = Except.ok ⟨goJoin "/tmp" (goBase "dist/secret_manager-linux-amd64"),
          "dist/secret_manager-linux-amd64", "payload"⟩
    ∧ goJoin "/tmp" "dist/secret_manager-linux-amd64"
      = "/tmp" ++ "/" ++ ("dist" ++ "/" ++ "secret_manager-linux-amd64") := by
  have h := extractZip_joins_full_name extOk "/tmp" [⟨"README.md", "r"⟩]
    ⟨"dist/secret_manager-linux-amd64", "payload"⟩ [] (by decide) (by decide)
    rfl rfl rfl
  exact ⟨h.1, h.2.1,
    h.2.2 "dist" "secret_manager-linux-amd64" (by decide) (by decide)⟩
